import Mathlib

/-!
# Verification of the transaction / bulk-DML core of `n8n-nodes-oracle-thin`

A shallow embedding of the repository's transaction and bulk-operation
subsystem, together with theorems settling the specification claims.

Embedded source units:

* `TransactionManager` (`src/unnamed/part_002`): savepoint bookkeeping,
  commit/rollback, retry-with-classification, batched statement execution.
* `BulkOperations` in `src/nodes/Oracle/OracleDatabase.node.ts`
  (lines 540-1072): batched bulk insert/update/delete plus single-statement
  upsert.
* `BulkOperations` in `src/unnamed/part_003`: the `lib/core/operations`
  migration of the same class.

The Oracle connection is the environment: each embedded operation takes the
driver's responses (success / per-row batch errors / thrown error) as an
explicit oracle argument.  JavaScript `number` counters are modelled as `Int`
(so JS subtraction such as `batch.length - batchErrors.length` keeps its
possibly-negative semantics); list indices and sizes are `Nat`.
-/

namespace OracleThin

/-- A JavaScript thrown value, as far as the embedded code inspects it:
whether it is an `instanceof Error`, and its `.message` (for a non-`Error`
value, `message` stands for its `String(...)` coercion). -/
structure JsError where
  isError : Bool
  message : String
  deriving DecidableEq, Repr

/-- JS `haystack.includes(needle)` on strings. -/
def strIncludes (haystack needle : String) : Bool :=
  decide (needle.toList <:+: haystack.toList)

/-! ## Bulk-operation data model
(`OracleDatabase.node.ts` lines 542-576, `part_003` result shape) -/

/-- One entry of `BulkOperationResult.errors`
(`OracleDatabase.node.ts` lines 552-557; the `data?` payload field is not
modelled — no claim inspects it). -/
structure BulkError where
  batchIndex : Nat
  rowIndex : Nat
  error : String
  deriving DecidableEq, Repr

/-- `BulkOperationResult` (`OracleDatabase.node.ts` lines 542-550).
The wall-clock `duration` field is not modelled. -/
structure BulkResult where
  operation : String
  totalRows : Nat
  successfulRows : Int
  failedRows : Int
  batchCount : Nat
  errors : List BulkError
  deriving DecidableEq, Repr

/-- `ServiceResult<BulkOperationResult>` as built by `part_003`. -/
structure ServiceResult where
  success : Bool
  data : BulkResult
  message : String
  deriving DecidableEq, Repr

/-- The options object accepted by the bulk entry points
(`BulkInsertOptions`, lines 559-565; absent fields are `none`). -/
structure BulkOptions where
  batchSize : Option Nat := none
  continueOnError : Option Bool := none
  autoCommit : Option Bool := none
  deriving DecidableEq, Repr

/-- Driver response of one `connection.executeMany` call:
either the call returns, carrying the (possibly empty) `batchErrors` list of
`(offset, error.message)` pairs, or it throws. -/
inductive DriverOut where
  | res (batchErrors : List (Nat × String))
  | raise (msg : String)
  deriving DecidableEq, Repr

/-- The connection's responses for one loop iteration: the
`connection.executeMany` outcome and the outcome of the per-batch
`connection.commit()` issued inside the same `try` block when `autoCommit`
is enabled (`none` = the commit succeeded, `some msg` = it threw). -/
structure BatchCall where
  exec : DriverOut
  commit : Option String
  deriving DecidableEq, Repr

/-- A bind row: the JS record `{col: value, ...}` of one data row, as an
association list from column name to an (opaque) integer value. -/
def Row : Type := List (String × Int)

instance : DecidableEq Row := inferInstanceAs (DecidableEq (List (String × Int)))

/-- JS `Object.keys(row)`. -/
def rowKeys (row : Row) : List String := row.map Prod.fst

/-! ## The batching loop

Both `BulkOperations` classes share the loop shape
`for (let i = 0; i < data.length; i += batchSize) { batch = data.slice(i, i + batchSize); ... }`.
`jsChunks` computes the sequence of slices that loop visits:
`data.slice(i, i + B)` is `(data.drop i).take B`, and dropping `i + B`
elements is dropping `B` elements of `data.drop i`, so the loop is the
recursion below started at the whole list.  The guard `0 < B` reflects that
the source loop never advances (runs forever) when `batchSize = 0`; every
theorem about the loop therefore assumes a positive batch size. -/
def jsChunks (B : Nat) (l : List Row) : List (List Row) :=
  go l.length l
where
  /-- Structural recursion on a fuel of `l.length` steps: each loop
  iteration drops `B ≥ 1` elements, so `l.length` iterations always
  suffice; `jsChunks_cons` recovers the loop's one-step unfolding. -/
  go (fuel : Nat) (l : List Row) : List (List Row) :=
    match fuel with
    | 0 => []
    | fuel + 1 =>
      if 0 < B ∧ l ≠ [] then l.take B :: go fuel (l.drop B) else []

/-- Accumulator threaded through the per-batch loop of the bulk methods.
`trace` records the zero-based index of every batch handed to
`connection.executeMany`, in execution order. -/
structure BulkAgg where
  successful : Int
  failed : Int
  batchCount : Nat
  errors : List BulkError
  trace : List Nat
  deriving DecidableEq, Repr

/-- The empty accumulator (`successful = 0; failed = 0; ...`). -/
def BulkAgg.init : BulkAgg := ⟨0, 0, 0, [], []⟩

/-! ## `BulkOperations` of `OracleDatabase.node.ts`

`bulkInsert` / `bulkUpdate` / `bulkDelete` (lines 592-915) triplicate one
aggregation loop verbatim (they differ only in the SQL text and bind-row
construction, which no claim depends on); `nodeBulkRun` embeds that loop
once, consuming the slice list produced by `jsChunks` with `k` the zero-based
batch number (so the loop variable `i` is `k * B`). -/
def nodeBulkRun (B : Nat) (co autoCommit : Bool) (driver : Nat → BatchCall) :
    List (List Row) → Nat → BulkAgg → Except String BulkAgg
  | [], _, agg => .ok agg
  | batch :: rest, k, agg =>
    -- `batchCount++` happens before the try block; the executeMany call is
    -- recorded in the trace.
    let agg := { agg with batchCount := agg.batchCount + 1, trace := agg.trace ++ [k] }
    match (driver k).exec with
    | .res offs =>
      let agg₁ :=
        if offs.length > 0 then
          -- lines 639-649: one error entry per driver-reported row error;
          -- the surviving rows of the batch are NOT added to totalSuccess.
          { agg with
            errors := agg.errors ++
              offs.map (fun off => ⟨k, k * B + off.1, off.2⟩),
            failed := agg.failed + offs.length }
        else
          { agg with successful := agg.successful + batch.length }
      -- lines 654-657: per-batch `connection.commit()` inside the same try;
      -- a commit failure reaches the catch with the counts above kept.
      match if autoCommit then (driver k).commit else none with
      | none => nodeBulkRun B co autoCommit driver rest (k + 1) agg₁
      | some msg =>
        if co then
          nodeBulkRun B co autoCommit driver rest (k + 1)
            { agg₁ with
              errors := agg₁.errors ++ [⟨k, k * B, msg⟩],
              failed := agg₁.failed + batch.length }
        else
          .error ("Erro no lote " ++ toString (k + 1) ++ ": " ++ msg)
    | .raise msg =>
      if co then
        -- lines 660-668: whole-batch failure under continueOnError records
        -- one error entry (rowIndex = i) and counts the whole batch failed.
        nodeBulkRun B co autoCommit driver rest (k + 1)
          { agg with
            errors := agg.errors ++ [⟨k, k * B, msg⟩],
            failed := agg.failed + batch.length }
      else
        .error ("Erro no lote " ++ toString (k + 1) ++ ": " ++ msg)

/-- `validateDataStructure` (lines 1011-1022): every row must contain every
column of the first row; returns the first violation's error message. -/
def validateDataStructure (data : List Row) (expectedColumns : List String) :
    Option String :=
  go data 0
where
  go : List Row → Nat → Option String
    | [], _ => none
    | row :: rest, i =>
      match expectedColumns.find? (fun col => !(rowKeys row).contains col) with
      | some col =>
        some ("Linha " ++ toString i ++ ": coluna '" ++ col ++ "' não encontrada")
      | none => go rest (i + 1)

/-- `bulkInsert` of `OracleDatabase.node.ts` (lines 592-696).
`dbs` is the instance's `defaultBatchSize` (constructor default 1000);
`finalCommit` is the outcome of the final `connection.commit()` of line 679,
issued outside the loop's try (so a failure propagates uncaught) and gated
on the *defaulted* `autoCommit` local: `if (!autoCommit && totalSuccess > 0)`. -/
def nodeBulkInsert (dbs : Nat) (_tableName : String) (data : List Row)
    (opts : BulkOptions) (driver : Nat → BatchCall) (finalCommit : Option String) :
    Except String BulkResult :=
  let B := opts.batchSize.getD dbs
  let co := opts.continueOnError.getD false
  let autoCommit := opts.autoCommit.getD true
  match data with
  | [] => .error "Dados para inserção não podem estar vazios"
  | row0 :: _ =>
    let columns := rowKeys row0
    match validateDataStructure data columns with
    | some e => .error e
    | none =>
      match nodeBulkRun B co autoCommit driver (jsChunks B data) 0 BulkAgg.init with
      | .error e => .error e
      | .ok agg =>
        match if !autoCommit && agg.successful > 0 then finalCommit else none with
        | some msg => .error msg
        | none =>
          .ok { operation := "INSERT"
                totalRows := data.length
                successfulRows := agg.successful
                failedRows := agg.failed
                batchCount := agg.batchCount
                errors := agg.errors }

/-- `bulkUpdate` of `OracleDatabase.node.ts` (lines 701-811): validation
prefix (whereColumns present, data non-empty, a non-where column exists),
then the same loop. -/
def nodeBulkUpdate (dbs : Nat) (_tableName : String) (data : List Row)
    (whereColumns : List String) (opts : BulkOptions)
    (driver : Nat → BatchCall) (finalCommit : Option String) :
    Except String BulkResult :=
  let B := opts.batchSize.getD dbs
  let co := opts.continueOnError.getD false
  let autoCommit := opts.autoCommit.getD true
  if whereColumns.isEmpty then
    .error "whereColumns deve ser especificado para bulk update"
  else
    match data with
    | [] => .error "Dados para atualização não podem estar vazios"
    | row0 :: _ =>
      let allColumns := rowKeys row0
      let setColumns := allColumns.filter (fun col => !whereColumns.contains col)
      if setColumns.isEmpty then
        .error "Nenhuma coluna para atualizar encontrada"
      else
        match nodeBulkRun B co autoCommit driver (jsChunks B data) 0 BulkAgg.init with
        | .error e => .error e
        | .ok agg =>
          match if !autoCommit && agg.successful > 0 then finalCommit else none with
          | some msg => .error msg
          | none =>
            .ok { operation := "UPDATE"
                  totalRows := data.length
                  successfulRows := agg.successful
                  failedRows := agg.failed
                  batchCount := agg.batchCount
                  errors := agg.errors }

/-- `bulkDelete` of `OracleDatabase.node.ts` (lines 816-915). -/
def nodeBulkDelete (dbs : Nat) (_tableName : String) (data : List Row)
    (whereColumns : List String) (opts : BulkOptions)
    (driver : Nat → BatchCall) (finalCommit : Option String) :
    Except String BulkResult :=
  let B := opts.batchSize.getD dbs
  let co := opts.continueOnError.getD false
  let autoCommit := opts.autoCommit.getD true
  if whereColumns.isEmpty then
    .error "whereColumns deve ser especificado para bulk delete"
  else
    match data with
    | [] => .error "Dados para exclusão não podem estar vazios"
    | _ :: _ =>
      match nodeBulkRun B co autoCommit driver (jsChunks B data) 0 BulkAgg.init with
      | .error e => .error e
      | .ok agg =>
        match if !autoCommit && agg.successful > 0 then finalCommit else none with
        | some msg => .error msg
        | none =>
          .ok { operation := "DELETE"
                totalRows := data.length
                successfulRows := agg.successful
                failedRows := agg.failed
                batchCount := agg.batchCount
                errors := agg.errors }

/-! ## `BulkOperations` of `part_003`

The migrated class's four methods are verbatim copies of one loop
(`part_003` lines 43-73 and its three repetitions); `part3BulkRun` embeds it
once.  It differs from `nodeBulkRun` in two places: a batch with driver
row-errors also credits the surviving rows
(`successful += batch.length - result.batchErrors.length`, JS number
subtraction, hence `Int`), and a thrown batch is counted failed *before* the
`continueOnError` re-throw and yields one error entry per row. -/
def part3BulkRun (B : Nat) (co autoCommit : Bool) (driver : Nat → BatchCall) :
    List (List Row) → Nat → BulkAgg → Except String BulkAgg
  | [], _, agg => .ok agg
  | batch :: rest, k, agg =>
    let agg := { agg with batchCount := agg.batchCount + 1, trace := agg.trace ++ [k] }
    match (driver k).exec with
    | .res offs =>
      let agg₁ :=
        if offs.length > 0 then
          { agg with
            errors := agg.errors ++
              offs.map (fun off => ⟨k, k * B + off.1, off.2⟩),
            failed := agg.failed + offs.length,
            successful := agg.successful + ((batch.length : Int) - offs.length) }
        else
          { agg with successful := agg.successful + batch.length }
      -- line 65: per-batch `connection.commit()` inside the try; a failure
      -- reaches the catch (counts above kept, then `failed += batch.length`).
      match if autoCommit then (driver k).commit else none with
      | none => part3BulkRun B co autoCommit driver rest (k + 1) agg₁
      | some msg =>
        if co then
          part3BulkRun B co autoCommit driver rest (k + 1)
            { agg₁ with
              failed := agg₁.failed + batch.length,
              errors := agg₁.errors ++
                (List.range batch.length).map (fun idx => ⟨k, k * B + idx, msg⟩) }
        else
          .error msg
    | .raise msg =>
      if co then
        part3BulkRun B co autoCommit driver rest (k + 1)
          { agg with
            failed := agg.failed + batch.length,
            errors := agg.errors ++
              (List.range batch.length).map (fun idx => ⟨k, k * B + idx, msg⟩) }
      else
        .error msg

/-- `bulkInsert` of `part_003` (lines 25-90): no empty-dataset validation,
no per-row structure validation; `columns` comes from `data[0] || {}`.
`finalCommit` is the outcome of the final `connection.commit()` of line 74,
outside the try (a failure propagates raw) and gated on the *raw* option:
`if (!options.autoCommit && successful > 0)` — `!options.autoCommit` is
truthy when the option is absent or `false`, unlike node.ts's defaulted
`autoCommit` local. -/
def part3BulkInsert (dbs : Nat) (_tableName : String) (data : List Row)
    (opts : BulkOptions) (driver : Nat → BatchCall) (finalCommit : Option String) :
    Except String ServiceResult :=
  let B := opts.batchSize.getD dbs
  let co := opts.continueOnError.getD false
  let autoCommit := opts.autoCommit.getD true
  let rawAutoCommitFalsy :=
    match opts.autoCommit with
    | some true => false
    | _ => true
  match part3BulkRun B co autoCommit driver (jsChunks B data) 0 BulkAgg.init with
  | .error e => .error e
  | .ok agg =>
    match if rawAutoCommitFalsy && agg.successful > 0 then finalCommit else none with
    | some msg => .error msg
    | none =>
      .ok { success := agg.failed == (0 : Int)
            data :=
              { operation := "INSERT"
                totalRows := data.length
                successfulRows := agg.successful
                failedRows := agg.failed
                batchCount := agg.batchCount
                errors := agg.errors }
            message := "Bulk insert completed: " ++ toString agg.successful ++
              " succeeded, " ++ toString agg.failed ++ " failed" }

/-! ## `TransactionManager` (`src/unnamed/part_002`)

State and operations of the savepoint-aware transaction coordinator.
Connection calls (`connection.execute`, `connection.commit`,
`connection.rollback`) are oracles of type `Option String`: `none` means the
call succeeded, `some msg` means it threw an error with message `msg`.
Each operation returns `(thrown?, post-state)`; a thrown error is
`some message` in the first component. -/

/-- `SavepointInfo` (`part_002` lines 11-15); the `Date` timestamp is a
`Nat` tick. -/
structure SavepointInfo where
  name : String
  timestamp : Nat
  description : Option String
  deriving DecidableEq, Repr

/-- `TransactionOptions` after the constructor merged in its defaults
(`part_002` lines 27-34). -/
inductive Isolation where
  | readCommitted
  | serializable
  | readOnly
  deriving DecidableEq, Repr

/-- Merged transaction options (`part_002` lines 27-34; defaults
`isolation = READ_COMMITTED`, `timeout = 300`, `autoRollbackOnError = true`,
`maxRetries = 3`, `retryDelay = 1000`). -/
structure TMOptions where
  isolation : Isolation := .readCommitted
  timeout : Nat := 300
  autoRollbackOnError : Bool := true
  maxRetries : Nat := 3
  retryDelay : Nat := 1000
  deriving DecidableEq, Repr

/-- The mutable fields of `TransactionManager` (`part_002` lines 18-23). -/
structure TMState where
  savepoints : List SavepointInfo
  transactionStartTime : Option Nat
  isTransactionActive : Bool
  retryCount : Nat
  deriving DecidableEq, Repr

/-- Field initialisers of a freshly constructed manager
(`part_002` lines 19-23). -/
def TMState.init : TMState := ⟨[], none, false, 0⟩

/-- `isValidSavepointName` (`part_002` lines 387-389):
`/^[a-zA-Z][a-zA-Z0-9_]*$/.test(name) && name.length <= 30`. -/
def isValidSavepointName (name : String) : Bool :=
  savepointRegexTest name && name.length ≤ 30
where
  /-- `/^[a-zA-Z][a-zA-Z0-9_]*$/.test(name)` -/
  savepointRegexTest (name : String) : Bool :=
    match name.toList with
    | [] => false
    | c :: cs => alpha c && cs.all nameChar
  /-- `[a-zA-Z]` -/
  alpha (c : Char) : Bool :=
    ('a' ≤ c && c ≤ 'z') || ('A' ≤ c && c ≤ 'Z')
  /-- `[a-zA-Z0-9_]` -/
  nameChar (c : Char) : Bool :=
    alpha c || ('0' ≤ c && c ≤ '9') || c = '_'

/-- Modelled from the spec: the savepoint-name pattern of the
TransactionState invariant, `^[A-Za-z][A-Za-z0-9_]{0,29}$` — a leading
letter followed by at most 29 letters, digits or underscores. -/
def specSavepointPattern (name : String) : Bool :=
  match name.toList with
  | [] => false
  | c :: cs =>
    isValidSavepointName.alpha c &&
    cs.all isValidSavepointName.nameChar &&
    cs.length ≤ 29

/-- `cleanupTransaction` (`part_002` lines 420-425). -/
def cleanupTransaction (_s : TMState) : TMState :=
  ⟨[], none, false, 0⟩

/-- `beginTransaction` (`part_002` lines 40-71).  `isoRes` is the outcome of
the `SET TRANSACTION ISOLATION LEVEL` statement, executed only when the
configured isolation differs from `READ_COMMITTED`; the timeout
configuration (`setTimeout`) issues no connection call and cannot throw.
`now` is `new Date()`. -/
def beginTransaction (s : TMState) (opts : TMOptions) (isoRes : Option String)
    (now : Nat) : Option String × TMState :=
  if s.isTransactionActive then
    (some "Transação já está ativa. Use commit() ou rollback() primeiro.", s)
  else
    match if opts.isolation ≠ .readCommitted then isoRes else none with
    | some msg => (some ("Falha ao iniciar transação: " ++ msg), s)
    | none =>
      (none, { s with
        transactionStartTime := some now
        isTransactionActive := true
        retryCount := 0 })

/-- `createSavepoint` (`part_002` lines 76-111).  `execRes` is the outcome
of the `SAVEPOINT name` statement; `now` is `new Date()`. -/
def createSavepoint (s : TMState) (name : String) (description : Option String)
    (execRes : Option String) (now : Nat) : Option String × TMState :=
  if !s.isTransactionActive then
    (some "Nenhuma transação ativa para criar savepoint", s)
  else if !isValidSavepointName name then
    (some "Nome do savepoint inválido. Use apenas letras, números e underscore.", s)
  else if (s.savepoints.find? (fun sp => sp.name == name)).isSome then
    (some ("Savepoint '" ++ name ++ "' já existe"), s)
  else
    match execRes with
    | some msg => (some ("Falha ao criar savepoint '" ++ name ++ "': " ++ msg), s)
    | none => (none, { s with savepoints := s.savepoints ++ [⟨name, now, description⟩] })

/-- `rollbackToSavepoint` (`part_002` lines 116-143).  `execRes` is the
outcome of the `ROLLBACK TO SAVEPOINT name` statement; on success the
in-memory sequence is `slice(0, findIndex(name) + 1)`. -/
def rollbackToSavepoint (s : TMState) (name : String) (execRes : Option String) :
    Option String × TMState :=
  if !s.isTransactionActive then
    (some "Nenhuma transação ativa para rollback", s)
  else if !(s.savepoints.find? (fun sp => sp.name == name)).isSome then
    (some ("Savepoint '" ++ name ++ "' não encontrado"), s)
  else
    match execRes with
    | some msg => (some ("Falha no rollback para savepoint '" ++ name ++ "': " ++ msg), s)
    | none =>
      let savepointIndex := s.savepoints.findIdx (fun sp => sp.name == name)
      (none, { s with savepoints := s.savepoints.take (savepointIndex + 1) })

/-- `releaseSavepoint` (`part_002` lines 148-171): bookkeeping removal only,
no statement is sent (`savepoints.splice(index, 1)`). -/
def releaseSavepoint (s : TMState) (name : String) : Option String × TMState :=
  if !s.isTransactionActive then
    (some "Nenhuma transação ativa", s)
  else
    let savepointIndex := s.savepoints.findIdx (fun sp => sp.name == name)
    if savepointIndex == s.savepoints.length then
      -- `findIndex` returned -1: not found
      (some ("Savepoint '" ++ name ++ "' não encontrado"), s)
    else
      (none, { s with savepoints := s.savepoints.eraseIdx savepointIndex })

/-- `rollback` (`part_002` lines 204-225).  `rbRes` is the outcome of
`connection.rollback()`; the state is cleaned up on both paths. -/
def TMrollback (s : TMState) (rbRes : Option String) : Option String × TMState :=
  if !s.isTransactionActive then
    (some "Nenhuma transação ativa para rollback", s)
  else
    match rbRes with
    | none => (none, cleanupTransaction s)
    | some msg => (some ("Falha no rollback: " ++ msg), cleanupTransaction s)

/-- `commit` (`part_002` lines 176-199).  `commitRes` is the outcome of
`connection.commit()`; when it throws and `autoRollbackOnError` is set,
`rollback()` runs inside the catch (an error thrown by that inner rollback
propagates instead of the commit-failure error). -/
def TMcommit (s : TMState) (opts : TMOptions) (commitRes rbRes : Option String) :
    Option String × TMState :=
  if !s.isTransactionActive then
    (some "Nenhuma transação ativa para commit", s)
  else
    match commitRes with
    | none => (none, cleanupTransaction s)
    | some msg =>
      if opts.autoRollbackOnError then
        match TMrollback s rbRes with
        | (none, s') => (some ("Falha no commit: " ++ msg), s')
        | (some e, s') => (some e, s')
      else
        (some ("Falha no commit: " ++ msg), s)

/-- `isRetryableError` (`part_002` lines 394-407).  The source's `some`
callback is
`code => error instanceof Error ? error.message : String(error)?.includes(code)`;
by ternary precedence the whole conditional is the callback result, so for
an `Error` the callback yields `error.message` itself (truthy exactly when
non-empty) and never reaches `.includes(code)`. -/
def retryableErrors : List String :=
  ["ORA-00060", "ORA-08177", "ORA-00054", "ORA-30006"]

/-- See `retryableErrors`; the guarded branch keeps the unreachable
non-`Error` arm of the source callback. -/
def isRetryableError (error : JsError) : Bool :=
  if !error.isError then
    false
  else
    retryableErrors.any (fun code =>
      if error.isError then error.message ≠ "" else strIncludes error.message code)

/-- The `for (attempt = 1; attempt <= maxRetries; attempt++)` loop of
`executeWithRetry` (`part_002` lines 233-267).  `opAt n` is the outcome of
the `n`-th invocation of `operation` (1-based).  Returns the overall
outcome, the number of `retryCount` increments, and the number of times
`operation` was invoked. -/
def retryLoop (mr : Nat) (opAt : Nat → Except JsError Int) (attempt : Nat) :
    Except JsError Int × Nat × Nat :=
  match opAt attempt with
  | .ok v => (.ok v, 0, 1)
  | .error e =>
    if !isRetryableError e then
      (.error e, 0, 1)
    else if attempt < mr then
      let (res, incs, invocations) := retryLoop mr opAt (attempt + 1)
      (res, incs + 1, invocations + 1)
    else
      -- loop exhausted: `lastError` is re-thrown (re-wrapped when it is not
      -- an `Error` instance)
      (.error (if e.isError then e else ⟨true, e.message⟩), 0, 1)
termination_by mr - attempt

/-- `executeWithRetry` (`part_002` lines 230-268).  The effective attempt
bound is `this.options.maxRetries || 3` (JS `||`: a configured `0` falls
back to `3`). -/
def executeWithRetry (s : TMState) (opts : TMOptions)
    (opAt : Nat → Except JsError Int) : Except JsError Int × TMState × Nat :=
  let mr := if opts.maxRetries = 0 then 3 else opts.maxRetries
  let (res, incs, invocations) := retryLoop mr opAt 1
  (res, { s with retryCount := s.retryCount + incs }, invocations)

/-! ### `executeBatch` (`part_002` lines 273-336) -/

/-- One entry of the per-operation results list built by `executeBatch`. -/
structure BatchEntry where
  index : Nat
  name : String
  success : Bool
  rowsAffected : Option Int
  error : Option String
  deriving DecidableEq, Repr

/-- Environment of operation `i` inside `executeBatch`: outcome of the
`SAVEPOINT` statement issued by `createSavepoint`, the `Date.now()` value
used in the auto-generated savepoint name, the outcome of the operation's
own statement, and the outcome of the `ROLLBACK TO SAVEPOINT` statement of
the error path. -/
structure BatchEnv where
  spExec : Option String
  spNow : Nat
  exec : Except String Int
  rbExec : Option String

/-- The head of the `executeBatch` try block (`part_002` lines 292-295):
the optional `createSavepoint` call with the auto-generated name
`batch_<index>_<timestamp>`. -/
def batchSavepointStep (spo : Bool) (env : Nat → BatchEnv) (i : Nat)
    (s : TMState) : Option String × TMState :=
  if spo then
    createSavepoint s ("batch_" ++ toString i ++ "_" ++ toString (env i).spNow)
      none (env i).spExec (env i).spNow
  else (none, s)

/-- The `stopOnError` arm of the `executeBatch` catch block (`part_002`
lines 324-331): roll back to the most recently created savepoint when
`savepointPerOperation` is on and one exists (a failure of that rollback
propagates instead), then re-throw the operation failure. -/
def batchFailureStop (spo : Bool) (env : Nat → BatchEnv) (i : Nat)
    (s₁ : TMState) (operationName errorMessage : String)
    (results : List BatchEntry) : Option String × TMState × List BatchEntry :=
  match
    if spo && !s₁.savepoints.isEmpty then
      match s₁.savepoints.getLast? with
      | some lastSavepoint => rollbackToSavepoint s₁ lastSavepoint.name (env i).rbExec
      | none => (none, s₁)
    else (none, s₁)
  with
  | (some e, s₂) => (some e, s₂, results)
  | (none, s₂) =>
    (some ("Operação '" ++ operationName ++ "' falhou: " ++ errorMessage), s₂, results)

/-- The loop of `executeBatch` over the remaining operations (`part_002`
lines 287-333); `i` is the current index.  Errors of `createSavepoint` or
of the statement itself are caught: the failure is recorded and, under
`stopOnError`, the catch rolls back and re-throws (`batchFailureStop`);
otherwise the loop continues. -/
def executeBatchLoop (spo soe : Bool) (env : Nat → BatchEnv) :
    List (String × Option String) → Nat → TMState → List BatchEntry →
    Option String × TMState × List BatchEntry
  | [], _, s, results => (none, s, results)
  | op :: rest, i, s, results =>
    let operationName := op.2.getD ("operation_" ++ toString (i + 1))
    match batchSavepointStep spo env i s with
    | (some e, s₁) =>
      -- savepoint creation threw inside the try block
      let results₁ := results ++ [⟨i, operationName, false, none, some e⟩]
      if soe then batchFailureStop spo env i s₁ operationName e results₁
      else executeBatchLoop spo soe env rest (i + 1) s₁ results₁
    | (none, s₁) =>
      match (env i).exec with
      | .ok rowsAffected =>
        executeBatchLoop spo soe env rest (i + 1) s₁
          (results ++ [⟨i, operationName, true, some rowsAffected, none⟩])
      | .error msg =>
        let results₁ := results ++ [⟨i, operationName, false, none, some msg⟩]
        if soe then batchFailureStop spo env i s₁ operationName msg results₁
        else executeBatchLoop spo soe env rest (i + 1) s₁ results₁

/-- `executeBatch` (`part_002` lines 273-336): implicit `beginTransaction`
when no transaction is active, then the per-operation loop. -/
def executeBatch (s : TMState) (opts : TMOptions)
    (operations : List (String × Option String)) (spo soe : Bool)
    (beginIsoRes : Option String) (beginNow : Nat) (env : Nat → BatchEnv) :
    Option String × TMState × List BatchEntry :=
  if !s.isTransactionActive then
    match beginTransaction s opts beginIsoRes beginNow with
    | (some e, s') => (some e, s', [])
    | (none, s') => executeBatchLoop spo soe env operations 0 s' []
  else
    executeBatchLoop spo soe env operations 0 s []

/-! ## `bulkUpsert` of `OracleDatabase.node.ts` (lines 920-977) -/

/-- Distinguishes the kind of JS value thrown by `bulkUpsert`: a `TypeError`
raised by the runtime (here: `Object.keys(undefined)`), or an explicitly
constructed `Error`. -/
inductive UpsertErr where
  | typeError (msg : String)
  | jsError (msg : String)
  deriving DecidableEq, Repr

/-- `bulkUpsert` (lines 920-977).  After the `keyColumns` validation, line
932 evaluates `Object.keys(data[0])`; for an empty `data` array `data[0]` is
`undefined` and the runtime throws a `TypeError` — outside the `try` block
(lines 951-976), which only wraps the MERGE round trip.  `execRes` is the
outcome of that single `connection.execute` call (`rowsAffected` may be
absent, hence `Option Int`; the result uses `result.rowsAffected || 0`). -/
def nodeBulkUpsert (_tableName : String) (data : List Row)
    (keyColumns : List String) (_opts : BulkOptions)
    (execRes : Except String (Option Int)) : Except UpsertErr BulkResult :=
  if keyColumns.isEmpty then
    .error (.jsError "keyColumns deve ser especificado para upsert")
  else
    match data with
    | [] => .error (.typeError "Cannot convert undefined or null to object")
    | _ :: _ =>
      match execRes with
      | .ok rowsAffected =>
        .ok { operation := "UPSERT"
              totalRows := data.length
              successfulRows := (rowsAffected.getD 0 : Int)
              failedRows := 0
              batchCount := 1
              errors := [] }
      | .error msg => .error (.jsError ("Erro no bulk upsert: " ++ msg))

/-! ## Concrete fixtures used by witnesses and counterexamples -/

/-- The spec's scenario input `[{a:1},{a:2},{a:3}]`. -/
def rows3 : List Row := [[("a", 1)], [("a", 2)], [("a", 3)]]

/-- A driver for the scenario: batch 0 reports one per-row error at offset 1,
every other batch succeeds cleanly; every commit succeeds. -/
def scenarioDriver : Nat → BatchCall := fun k =>
  ⟨if k = 0 then .res [(1, "ORA-00001: unique constraint violated")] else .res [], none⟩

/-- A driver that always succeeds with no batch errors and whose per-batch
commits succeed. -/
def cleanDriver : Nat → BatchCall := fun _ => ⟨.res [], none⟩

/-- A failing final-commit outcome (the connection drops after the loop). -/
def finalCommitFailure : Option String :=
  some "ORA-03113: end-of-file on communication channel"

/-- An always-deadlocking operation for the retry scenario. -/
def deadlockError : JsError :=
  ⟨true, "ORA-00060: deadlock detected while waiting for resource"⟩

/-! ## The TransactionState invariant and the public-operation step relation -/

/-- The savepoint sequence is well-formed: every name matches the spec's
pattern and the names are pairwise distinct. -/
def savepointNamesOk : List SavepointInfo → Bool
  | [] => true
  | sp :: rest =>
    specSavepointPattern sp.name && rest.all (fun x => x.name != sp.name) &&
      savepointNamesOk rest

/-- The TransactionState invariant: savepoint names are pairwise distinct
and match `^[A-Za-z][A-Za-z0-9_]{0,29}$`, and an inactive manager has no
savepoints and no start timestamp. -/
def TMInv (s : TMState) : Bool :=
  savepointNamesOk s.savepoints &&
  (s.isTransactionActive || (s.savepoints.isEmpty && s.transactionStartTime.isNone))

/-- One invocation of a public `TransactionManager` operation, relating the
state before to the state after, over every input and every connection
outcome — error paths included (each embedded operation returns its
post-state on both paths). -/
inductive TMStep (opts : TMOptions) : TMState → TMState → Prop where
  | beginStep (s : TMState) (isoRes : Option String) (now : Nat) :
      TMStep opts s (beginTransaction s opts isoRes now).2
  | createStep (s : TMState) (name : String) (d : Option String)
      (execRes : Option String) (now : Nat) :
      TMStep opts s (createSavepoint s name d execRes now).2
  | rollbackToStep (s : TMState) (name : String) (execRes : Option String) :
      TMStep opts s (rollbackToSavepoint s name execRes).2
  | releaseStep (s : TMState) (name : String) :
      TMStep opts s (releaseSavepoint s name).2
  | commitStep (s : TMState) (commitRes rbRes : Option String) :
      TMStep opts s (TMcommit s opts commitRes rbRes).2
  | rollbackStep (s : TMState) (rbRes : Option String) :
      TMStep opts s (TMrollback s rbRes).2
  | retryStep (s : TMState) (opAt : Nat → Except JsError Int) :
      TMStep opts s (executeWithRetry s opts opAt).2.1
  | batchStep (s : TMState) (operations : List (String × Option String))
      (spo soe : Bool) (beginIsoRes : Option String) (beginNow : Nat)
      (env : Nat → BatchEnv) :
      TMStep opts s (executeBatch s opts operations spo soe beginIsoRes beginNow env).2.1

/-! ## Lemmas about the batching loop -/

theorem jsChunks_nil (B : Nat) : jsChunks B [] = [] := rfl

theorem jsChunks_go_eq (B : Nat) (hB : 0 < B) :
    ∀ (fuel : Nat) (l : List Row), l.length ≤ fuel →
      jsChunks.go B fuel l = jsChunks B l := by
  intro fuel
  induction fuel using Nat.strong_induction_on with
  | _ fuel ih =>
    intro l hlen
    cases fuel with
    | zero =>
      have : l = [] := List.length_eq_zero.mp (Nat.le_zero.mp hlen)
      subst this
      rfl
    | succ fuel =>
      cases l with
      | nil =>
        show (if 0 < B ∧ ([] : List Row) ≠ [] then
            ([] : List Row).take B :: jsChunks.go B fuel (([] : List Row).drop B)
          else []) = jsChunks B []
        rw [if_neg (by simp), jsChunks_nil]
      | cons x xs =>
        show (if 0 < B ∧ x :: xs ≠ [] then
            (x :: xs).take B :: jsChunks.go B fuel ((x :: xs).drop B) else []) =
          jsChunks B (x :: xs)
        rw [if_pos ⟨hB, by simp⟩]
        have hdrop : ((x :: xs).drop B).length ≤ fuel := by
          simp only [List.length_drop, List.length_cons] at hlen ⊢
          omega
        have hdrop' : ((x :: xs).drop B).length ≤ xs.length := by
          simp only [List.length_drop, List.length_cons]
          omega
        rw [ih fuel (Nat.lt_succ_self fuel) _ hdrop]
        show _ = (if 0 < B ∧ x :: xs ≠ [] then
            (x :: xs).take B :: jsChunks.go B xs.length ((x :: xs).drop B) else [])
        rw [if_pos ⟨hB, by simp⟩,
          ih xs.length (by simp only [List.length_cons] at hlen; omega) _ hdrop']

theorem jsChunks_cons (B : Nat) (hB : 0 < B) (l : List Row) (hl : l ≠ []) :
    jsChunks B l = l.take B :: jsChunks B (l.drop B) := by
  cases l with
  | nil => exact absurd rfl hl
  | cons x xs =>
    show (if 0 < B ∧ x :: xs ≠ [] then
        (x :: xs).take B :: jsChunks.go B xs.length ((x :: xs).drop B) else []) = _
    rw [if_pos ⟨hB, by simp⟩]
    rw [jsChunks_go_eq B hB xs.length ((x :: xs).drop B)
      (by simp only [List.length_drop, List.length_cons]; omega)]

theorem jsChunks_ne_nil (B : Nat) (hB : 0 < B) (l : List Row) (hl : l ≠ []) :
    jsChunks B l ≠ [] := by
  rw [jsChunks_cons B hB l hl]
  exact List.cons_ne_nil _ _

theorem jsChunks_flatten (B : Nat) (hB : 0 < B) (l : List Row) :
    (jsChunks B l).flatten = l := by
  by_cases hl : l = []
  · subst hl
    rw [jsChunks_nil]
    rfl
  · rw [jsChunks_cons B hB l hl, List.flatten_cons,
      jsChunks_flatten B hB (l.drop B), List.take_append_drop]
termination_by l.length
decreasing_by
  simp only [List.length_drop]
  exact Nat.sub_lt (List.length_pos.mpr hl) hB

theorem jsChunks_length (B : Nat) (hB : 0 < B) (l : List Row) :
    (jsChunks B l).length = (l.length + B - 1) / B := by
  by_cases hl : l = []
  · subst hl
    rw [jsChunks_nil]
    simp [Nat.div_eq_of_lt (Nat.sub_lt hB Nat.one_pos)]
  · have hpos : 0 < l.length := List.length_pos.mpr hl
    rw [jsChunks_cons B hB l hl, List.length_cons,
      jsChunks_length B hB (l.drop B), List.length_drop]
    rcases Nat.lt_or_ge l.length B with hNB | hNB
    · have h1 : l.length - B + B - 1 < B := by omega
      have h2 : l.length + B - 1 = (l.length - 1) + B := by omega
      rw [Nat.div_eq_of_lt h1, h2, Nat.add_div_right _ hB,
        Nat.div_eq_of_lt (by omega : l.length - 1 < B)]
    · have h1 : l.length - B + B - 1 = l.length - 1 := by omega
      have h2 : l.length + B - 1 = (l.length - 1) + B := by omega
      rw [h1, h2, Nat.add_div_right _ hB]
termination_by l.length
decreasing_by
  simp only [List.length_drop]
  exact Nat.sub_lt (List.length_pos.mpr hl) hB

theorem length_of_mem_jsChunks (B : Nat) (hB : 0 < B) (l : List Row)
    (c : List Row) (hc : c ∈ jsChunks B l) : 0 < c.length ∧ c.length ≤ B := by
  by_cases hl : l = []
  · subst hl
    rw [jsChunks_nil] at hc
    cases hc
  · have hpos : 0 < l.length := List.length_pos.mpr hl
    rw [jsChunks_cons B hB l hl] at hc
    rcases List.mem_cons.mp hc with hceq | hmem
    · subst hceq
      simp only [List.length_take]
      omega
    · exact length_of_mem_jsChunks B hB (l.drop B) c hmem
termination_by l.length
decreasing_by
  simp only [List.length_drop]
  exact Nat.sub_lt (List.length_pos.mpr hl) hB

theorem length_of_mem_dropLast_jsChunks (B : Nat) (hB : 0 < B) (l : List Row)
    (c : List Row) (hc : c ∈ (jsChunks B l).dropLast) : c.length = B := by
  by_cases hl : l = []
  · subst hl
    rw [jsChunks_nil] at hc
    cases hc
  · rw [jsChunks_cons B hB l hl] at hc
    by_cases hd : l.drop B = []
    · rw [hd, jsChunks_nil] at hc
      cases hc
    · rw [List.dropLast_cons_of_ne_nil (jsChunks_ne_nil B hB _ hd)] at hc
      rcases List.mem_cons.mp hc with hceq | hmem
      · subst hceq
        have hlen : B < l.length := by
          have := List.length_pos.mpr hd
          simp only [List.length_drop] at this
          omega
        simp only [List.length_take]
        omega
      · exact length_of_mem_dropLast_jsChunks B hB (l.drop B) c hmem
termination_by l.length
decreasing_by
  simp only [List.length_drop]
  exact Nat.sub_lt (List.length_pos.mpr hl) hB

/-! ## Lemmas about the two aggregation loops -/

theorem nodeBulkRun_ok_shape (B : Nat) (co autoCommit : Bool)
    (driver : Nat → BatchCall) (bs : List (List Row)) :
    ∀ (k : Nat) (agg agg' : BulkAgg),
      nodeBulkRun B co autoCommit driver bs k agg = .ok agg' →
      agg'.batchCount = agg.batchCount + bs.length ∧
      agg'.trace = agg.trace ++ List.range' k bs.length := by
  induction bs with
  | nil =>
    intro k agg agg' h
    simp only [nodeBulkRun] at h
    cases h
    simp
  | cons batch rest ih =>
    intro k agg agg' h
    simp only [nodeBulkRun] at h
    cases hd : (driver k).exec with
    | res offs =>
      rw [hd] at h
      simp only at h
      cases hcm : (if autoCommit then (driver k).commit else none) with
      | none =>
        rw [hcm] at h
        simp only at h
        split at h
        all_goals
          obtain ⟨h1, h2⟩ := ih (k + 1) _ agg' h
          simp only at h1 h2
          rw [h1, h2, List.length_cons, List.range'_succ]
          exact ⟨by omega, by rw [List.append_assoc, List.singleton_append]⟩
      | some msg =>
        rw [hcm] at h
        simp only at h
        split at h
        · split at h
          all_goals
            obtain ⟨h1, h2⟩ := ih (k + 1) _ agg' h
            simp only at h1 h2
            rw [h1, h2, List.length_cons, List.range'_succ]
            exact ⟨by omega, by rw [List.append_assoc, List.singleton_append]⟩
        · cases h
    | raise msg =>
      rw [hd] at h
      simp only at h
      split at h
      · obtain ⟨h1, h2⟩ := ih (k + 1) _ agg' h
        simp only at h1 h2
        rw [h1, h2, List.length_cons, List.range'_succ]
        exact ⟨by omega, by rw [List.append_assoc, List.singleton_append]⟩
      · cases h

/-- The two loops are in lockstep on `failed` and `batchCount` for every
sequence of executeMany and per-batch-commit outcomes: they throw in the
same cases, and whenever both return they agree on those two counters —
including on batches with proper partial `batchErrors` lists. -/
theorem run_lockstep_failed (B : Nat) (co autoCommit : Bool)
    (driver : Nat → BatchCall) (bs : List (List Row)) :
    ∀ (k : Nat) (a₁ a₂ : BulkAgg),
      a₁.failed = a₂.failed → a₁.batchCount = a₂.batchCount →
      match nodeBulkRun B co autoCommit driver bs k a₁,
          part3BulkRun B co autoCommit driver bs k a₂ with
      | .ok b₁, .ok b₂ => b₁.failed = b₂.failed ∧ b₁.batchCount = b₂.batchCount
      | .error _, .error _ => True
      | _, _ => False := by
  induction bs with
  | nil =>
    intro k a₁ a₂ hf hb
    simp only [nodeBulkRun, part3BulkRun]
    exact ⟨hf, hb⟩
  | cons batch rest ih =>
    intro k a₁ a₂ hf hb
    simp only [nodeBulkRun, part3BulkRun]
    cases hd : (driver k).exec with
    | res offs =>
      simp only
      cases hcm : (if autoCommit then (driver k).commit else none) with
      | none =>
        simp only
        by_cases ho : offs.length > 0
        · rw [if_pos ho, if_pos ho]
          exact ih (k + 1) _ _ (by simp [hf]) (by simp [hb])
        · rw [if_neg ho, if_neg ho]
          exact ih (k + 1) _ _ (by simp [hf]) (by simp [hb])
      | some msg =>
        simp only
        by_cases hco : co = true
        · rw [if_pos hco, if_pos hco]
          by_cases ho : offs.length > 0
          · rw [if_pos ho, if_pos ho]
            exact ih (k + 1) _ _ (by simp [hf]) (by simp [hb])
          · rw [if_neg ho, if_neg ho]
            exact ih (k + 1) _ _ (by simp [hf]) (by simp [hb])
        · rw [if_neg hco, if_neg hco]
          trivial
    | raise msg =>
      simp only
      by_cases hco : co = true
      · rw [if_pos hco, if_pos hco]
        exact ih (k + 1) _ _ (by simp [hf]) (by simp [hb])
      · rw [if_neg hco, if_neg hco]
        trivial

/-- Under the all-or-nothing condition — every driver-reported `batchErrors`
list is empty or covers its entire batch — the two loops also agree on
`successful` (commit failures do not touch `successful` in either catch). -/
theorem run_lockstep_successful (B : Nat) (co autoCommit : Bool)
    (driver : Nat → BatchCall) (bs : List (List Row)) :
    ∀ (k : Nat) (a₁ a₂ : BulkAgg),
      a₁.successful = a₂.successful →
      (∀ j, j < bs.length → ∀ offs, (driver (k + j)).exec = .res offs →
        offs = [] ∨ offs.length = (bs.getD j []).length) →
      match nodeBulkRun B co autoCommit driver bs k a₁,
          part3BulkRun B co autoCommit driver bs k a₂ with
      | .ok b₁, .ok b₂ => b₁.successful = b₂.successful
      | .error _, .error _ => True
      | _, _ => False := by
  induction bs with
  | nil =>
    intro k a₁ a₂ hs _
    simp only [nodeBulkRun, part3BulkRun]
    exact hs
  | cons batch rest ih =>
    intro k a₁ a₂ hs haon
    have haon' : ∀ j, j < rest.length → ∀ offs, (driver (k + 1 + j)).exec = .res offs →
        offs = [] ∨ offs.length = (rest.getD j []).length := by
      intro j hj offs hoffs
      have := haon (j + 1) (by simp; omega) offs
        (by rw [show k + (j + 1) = k + 1 + j by omega]; exact hoffs)
      simpa using this
    simp only [nodeBulkRun, part3BulkRun]
    cases hd : (driver k).exec with
    | res offs =>
      simp only
      rcases haon 0 (by simp) offs (by simpa using hd) with hnil | hfull
      · subst hnil
        cases hcm : (if autoCommit then (driver k).commit else none) with
        | none =>
          simp only
          rw [if_neg (by simp), if_neg (by simp)]
          exact ih (k + 1) _ _ (by simp [hs]) haon'
        | some msg =>
          simp only
          by_cases hco : co = true
          · rw [if_pos hco, if_pos hco, if_neg (by simp), if_neg (by simp)]
            exact ih (k + 1) _ _ (by simp [hs]) haon'
          · rw [if_neg hco, if_neg hco]
            trivial
      · have hfull' : offs.length = batch.length := by simpa using hfull
        cases hcm : (if autoCommit then (driver k).commit else none) with
        | none =>
          simp only
          by_cases ho : offs.length > 0
          · rw [if_pos ho, if_pos ho]
            refine ih (k + 1) _ _ ?_ haon'
            simp [hs, hfull']
          · rw [if_neg ho, if_neg ho]
            exact ih (k + 1) _ _ (by simp [hs]) haon'
        | some msg =>
          simp only
          by_cases hco : co = true
          · rw [if_pos hco, if_pos hco]
            by_cases ho : offs.length > 0
            · rw [if_pos ho, if_pos ho]
              refine ih (k + 1) _ _ ?_ haon'
              simp [hs, hfull']
            · rw [if_neg ho, if_neg ho]
              exact ih (k + 1) _ _ (by simp [hs]) haon'
          · rw [if_neg hco, if_neg hco]
            trivial
    | raise msg =>
      simp only
      by_cases hco : co = true
      · rw [if_pos hco, if_pos hco]
        exact ih (k + 1) _ _ (by simp [hs]) haon'
      · rw [if_neg hco, if_neg hco]
        trivial

/-! ## Lemmas about the transaction-state invariant -/

theorem isValidSavepointName_eq_spec (name : String) :
    isValidSavepointName name = specSavepointPattern name := by
  rw [Bool.eq_iff_iff]
  rw [isValidSavepointName, specSavepointPattern,
    isValidSavepointName.savepointRegexTest]
  cases h : name.toList with
  | nil => simp
  | cons c cs =>
    have hlen : name.length = cs.length + 1 := by
      rw [show name.length = name.toList.length from rfl, h]
      rfl
    simp only [Bool.and_eq_true, decide_eq_true_eq, hlen]
    constructor
    · rintro ⟨⟨ha, hall⟩, hle⟩
      exact ⟨⟨ha, hall⟩, by omega⟩
    · rintro ⟨⟨ha, hall⟩, hle⟩
      exact ⟨⟨ha, hall⟩, by omega⟩

theorem savepointNamesOk_iff (l : List SavepointInfo) :
    savepointNamesOk l = true ↔
      (∀ sp ∈ l, specSavepointPattern sp.name = true) ∧
      l.Pairwise (fun a b => a.name ≠ b.name) := by
  induction l with
  | nil => simp [savepointNamesOk]
  | cons sp rest ih =>
    rw [savepointNamesOk]
    simp only [Bool.and_eq_true, List.all_eq_true, bne_iff_ne, ih,
      List.pairwise_cons, List.mem_cons]
    constructor
    · rintro ⟨⟨hpat, hne⟩, hrest, hpair⟩
      refine ⟨?_, ?_, hpair⟩
      · rintro x (rfl | hx)
        · exact hpat
        · exact hrest x hx
      · intro b hb
        exact (hne b hb).symm
    · rintro ⟨hall, hfst, hpair⟩
      exact ⟨⟨hall sp (Or.inl rfl), fun x hx => (hfst x hx).symm⟩,
        fun x hx => hall x (Or.inr hx), hpair⟩

theorem savepointNamesOk_sublist {l' l : List SavepointInfo}
    (hsub : List.Sublist l' l) (h : savepointNamesOk l = true) :
    savepointNamesOk l' = true := by
  rw [savepointNamesOk_iff] at h ⊢
  exact ⟨fun sp hm => h.1 sp (hsub.mem hm), h.2.sublist hsub⟩

theorem savepointNamesOk_append_one {l : List SavepointInfo} {n : String}
    (t : Nat) (d : Option String)
    (h : savepointNamesOk l = true)
    (hpat : specSavepointPattern n = true)
    (hnotmem : ∀ sp ∈ l, sp.name ≠ n) :
    savepointNamesOk (l ++ [⟨n, t, d⟩]) = true := by
  rw [savepointNamesOk_iff] at h ⊢
  refine ⟨?_, ?_⟩
  · intro sp hm
    rcases List.mem_append.mp hm with hm | hm
    · exact h.1 sp hm
    · simp only [List.mem_singleton] at hm
      subst hm
      exact hpat
  · rw [List.pairwise_append]
    refine ⟨h.2, List.pairwise_singleton _ _, ?_⟩
    intro a ha b hb
    simp only [List.mem_singleton] at hb
    subst hb
    exact hnotmem a ha

theorem TMInv_parts {s : TMState} (h : TMInv s = true) :
    savepointNamesOk s.savepoints = true ∧
      (s.isTransactionActive = true ∨
        (s.savepoints = [] ∧ s.transactionStartTime = none)) := by
  rw [TMInv, Bool.and_eq_true, Bool.or_eq_true, Bool.and_eq_true] at h
  refine ⟨h.1, ?_⟩
  rcases h.2 with h2 | h2
  · exact Or.inl h2
  · exact Or.inr ⟨List.isEmpty_iff.mp h2.1, Option.isNone_iff_eq_none.mp h2.2⟩

theorem TMInv_of_parts {s : TMState}
    (h1 : savepointNamesOk s.savepoints = true)
    (h2 : s.isTransactionActive = true ∨
      (s.savepoints = [] ∧ s.transactionStartTime = none)) :
    TMInv s = true := by
  rw [TMInv, Bool.and_eq_true, Bool.or_eq_true]
  refine ⟨h1, ?_⟩
  rcases h2 with h2 | h2
  · exact Or.inl h2
  · exact Or.inr (by simp [h2.1, h2.2])

theorem TMInv_retryCount (s : TMState) (n : Nat) :
    TMInv { s with retryCount := n } = TMInv s := rfl

theorem TMInv_cleanup (s : TMState) : TMInv (cleanupTransaction s) = true := rfl

theorem TMInv_begin (s : TMState) (opts : TMOptions) (isoRes : Option String)
    (now : Nat) (h : TMInv s = true) :
    TMInv (beginTransaction s opts isoRes now).2 = true := by
  rw [beginTransaction]
  split
  · exact h
  · split
    · exact h
    · exact TMInv_of_parts (TMInv_parts h).1 (Or.inl rfl)

theorem TMInv_create (s : TMState) (name : String) (d : Option String)
    (execRes : Option String) (now : Nat) (h : TMInv s = true) :
    TMInv (createSavepoint s name d execRes now).2 = true := by
  rw [createSavepoint.eq_def]
  split
  · exact h
  · split
    · exact h
    · split
      · exact h
      · split
        · exact h
        · rename_i hact hvalid hfind _heq
          refine TMInv_of_parts ?_ (Or.inl (by simpa using hact))
          show savepointNamesOk (s.savepoints ++ [⟨name, now, d⟩]) = true
          refine savepointNamesOk_append_one now d (TMInv_parts h).1 ?_ ?_
          · rw [← isValidSavepointName_eq_spec]
            simpa using hvalid
          · intro sp hm hcontra
            apply hfind
            rw [List.find?_isSome]
            exact ⟨sp, hm, by simp [hcontra]⟩

theorem TMInv_rollbackTo (s : TMState) (name : String) (execRes : Option String)
    (h : TMInv s = true) :
    TMInv (rollbackToSavepoint s name execRes).2 = true := by
  rw [rollbackToSavepoint.eq_def]
  split
  · exact h
  · split
    · exact h
    · split
      · exact h
      · rename_i hact _ _
        refine TMInv_of_parts ?_ (Or.inl (by simpa using hact))
        show savepointNamesOk (s.savepoints.take _) = true
        exact savepointNamesOk_sublist (List.take_sublist _ _) (TMInv_parts h).1

theorem TMInv_release (s : TMState) (name : String) (h : TMInv s = true) :
    TMInv (releaseSavepoint s name).2 = true := by
  rw [releaseSavepoint.eq_def]
  split
  · exact h
  · rename_i hact
    simp only
    split
    · exact h
    · refine TMInv_of_parts ?_ (Or.inl (by simpa using hact))
      show savepointNamesOk (s.savepoints.eraseIdx _) = true
      exact savepointNamesOk_sublist (List.eraseIdx_sublist _ _) (TMInv_parts h).1

theorem TMInv_TMrollback (s : TMState) (rbRes : Option String)
    (h : TMInv s = true) :
    TMInv (TMrollback s rbRes).2 = true := by
  rw [TMrollback.eq_def]
  split
  · exact h
  · split
    · exact TMInv_cleanup s
    · exact TMInv_cleanup s

theorem TMInv_TMcommit (s : TMState) (opts : TMOptions)
    (commitRes rbRes : Option String) (h : TMInv s = true) :
    TMInv (TMcommit s opts commitRes rbRes).2 = true := by
  rw [TMcommit.eq_def]
  split
  · exact h
  · split
    · exact TMInv_cleanup s
    · split
      · split
        · rename_i s' heq
          have hr := TMInv_TMrollback s rbRes h
          rw [heq] at hr
          exact hr
        · rename_i e s' heq
          have hr := TMInv_TMrollback s rbRes h
          rw [heq] at hr
          exact hr
      · exact h

theorem TMInv_retry (s : TMState) (opts : TMOptions)
    (opAt : Nat → Except JsError Int) (h : TMInv s = true) :
    TMInv (executeWithRetry s opts opAt).2.1 = true := by
  rcases hval : retryLoop (if opts.maxRetries = 0 then 3 else opts.maxRetries) opAt 1
    with ⟨res, incs, inv⟩
  have hstate : (executeWithRetry s opts opAt).2.1 =
      { s with retryCount := s.retryCount + incs } := by
    rw [executeWithRetry, hval]
  rw [hstate, TMInv_retryCount]
  exact h

theorem TMInv_batchSavepointStep (spo : Bool) (env : Nat → BatchEnv) (i : Nat)
    (s : TMState) (h : TMInv s = true) :
    TMInv (batchSavepointStep spo env i s).2 = true := by
  rw [batchSavepointStep]
  split
  · exact TMInv_create _ _ _ _ _ h
  · exact h

theorem TMInv_batchFailureStop (spo : Bool) (env : Nat → BatchEnv) (i : Nat)
    (s₁ : TMState) (operationName errorMessage : String)
    (results : List BatchEntry) (h : TMInv s₁ = true) :
    TMInv (batchFailureStop spo env i s₁ operationName errorMessage results).2.1 = true := by
  have hrb : TMInv (if spo && !s₁.savepoints.isEmpty then
      match s₁.savepoints.getLast? with
      | some lastSavepoint => rollbackToSavepoint s₁ lastSavepoint.name (env i).rbExec
      | none => (none, s₁)
    else (none, s₁)).2 = true := by
    split
    · split
      · exact TMInv_rollbackTo _ _ _ h
      · exact h
    · exact h
  rw [batchFailureStop]
  split
  · rename_i e s₂ heq
    rw [heq] at hrb
    exact hrb
  · rename_i s₂ heq
    rw [heq] at hrb
    exact hrb

theorem TMInv_batchLoop (spo soe : Bool) (env : Nat → BatchEnv)
    (ops : List (String × Option String)) :
    ∀ (i : Nat) (s : TMState) (results : List BatchEntry), TMInv s = true →
      TMInv (executeBatchLoop spo soe env ops i s results).2.1 = true := by
  induction ops with
  | nil =>
    intro i s results h
    simpa only [executeBatchLoop] using h
  | cons op rest ih =>
    intro i s results h
    rw [executeBatchLoop]
    simp only
    split
    · rename_i e s₁ heq
      have hs₁ : TMInv s₁ = true := by
        have := TMInv_batchSavepointStep spo env i s h
        rw [heq] at this
        exact this
      split
      · exact TMInv_batchFailureStop spo env i s₁ _ _ _ hs₁
      · exact ih (i + 1) s₁ _ hs₁
    · rename_i s₁ heq
      have hs₁ : TMInv s₁ = true := by
        have := TMInv_batchSavepointStep spo env i s h
        rw [heq] at this
        exact this
      split
      · exact ih (i + 1) s₁ _ hs₁
      · split
        · exact TMInv_batchFailureStop spo env i s₁ _ _ _ hs₁
        · exact ih (i + 1) s₁ _ hs₁

theorem TMInv_batch (s : TMState) (opts : TMOptions)
    (operations : List (String × Option String)) (spo soe : Bool)
    (beginIsoRes : Option String) (beginNow : Nat) (env : Nat → BatchEnv)
    (h : TMInv s = true) :
    TMInv (executeBatch s opts operations spo soe beginIsoRes beginNow env).2.1 = true := by
  rw [executeBatch]
  split
  · split
    · rename_i e s' heq
      have hb := TMInv_begin s opts beginIsoRes beginNow h
      rw [heq] at hb
      exact hb
    · rename_i s' heq
      have hb := TMInv_begin s opts beginIsoRes beginNow h
      rw [heq] at hb
      exact TMInv_batchLoop spo soe env operations 0 s' [] hb
  · exact TMInv_batchLoop spo soe env operations 0 s [] h

theorem findIdx_eq_length_append (pre : List SavepointInfo) (sp : SavepointInfo)
    (post : List SavepointInfo) {p : SavepointInfo → Bool}
    (hpre : ∀ x ∈ pre, p x = false) (hsp : p sp = true) :
    (pre ++ sp :: post).findIdx p = pre.length := by
  induction pre with
  | nil => simp [List.findIdx_cons, hsp]
  | cons a pre ih =>
    rw [List.cons_append, List.findIdx_cons, hpre a (List.mem_cons_self a pre)]
    rw [ih (fun x hx => hpre x (List.mem_cons_of_mem a hx))]
    simp

theorem take_append_cons (pre : List SavepointInfo) (sp : SavepointInfo)
    (post : List SavepointInfo) :
    (pre ++ sp :: post).take (pre.length + 1) = pre ++ [sp] := by
  induction pre with
  | nil => simp
  | cons a pre ih =>
    rw [List.cons_append, List.length_cons, List.take_succ_cons, ih]
    rfl

/-! ## Claim theorems -/

/-- C1: the claim `successfulRows + failedRows == totalRows` fails on the
`OracleDatabase.node.ts` implementation.  On the spec's own scenario —
`bulkInsert("T", [{a:1},{a:2},{a:3}], {batchSize:2, continueOnError:true})`
with the driver failing row index 1 — the returned result has
`successfulRows = 1, failedRows = 1, totalRows = 3` (the surviving row of
the partially failed batch is never credited), so the sum is 2 ≠ 3. -/
theorem C1_node_bulkInsert_partial_batch_counts :
    (nodeBulkInsert 1000 "T" rows3 ⟨some 2, some true, none⟩ scenarioDriver none).map
        (fun r => (r.successfulRows, r.failedRows, r.totalRows)) =
      .ok (1, 1, 3) ∧ ¬ ((1 : Int) + 1 = ((3 : Nat) : Int)) := by
  exact ⟨rfl, by decide⟩

/-- C2: the error classifier does not implement the closed four-code
retryable set.  By the ternary precedence in
`retryableErrors.some(code => error instanceof Error ? error.message : ...)`
the callback returns `error.message` itself, so an `Error` whose message
contains none of the four ORA codes — here a unique-constraint violation —
is still classified retryable (`true`), where the claim requires FATAL. -/
theorem C2_isRetryableError_nonconflict_error :
    isRetryableError ⟨true, "ORA-00001: unique constraint (USR.UK1) violated"⟩ = true ∧
    strIncludes "ORA-00001: unique constraint (USR.UK1) violated" "ORA-00060" = false ∧
    strIncludes "ORA-00001: unique constraint (USR.UK1) violated" "ORA-08177" = false ∧
    strIncludes "ORA-00001: unique constraint (USR.UK1) violated" "ORA-00054" = false ∧
    strIncludes "ORA-00001: unique constraint (USR.UK1) violated" "ORA-30006" = false := by
  exact ⟨rfl, by decide, by decide, by decide, by decide⟩

/-- C3 counterexample: `bulkInsert` of `part_003` performs no empty-dataset
validation — on an empty `rows` input it returns a `BulkOperationResult`
(all counts zero) instead of raising a validation error. -/
theorem C3_part3_empty_returns_result :
    part3BulkInsert 1000 "T" [] {} cleanDriver none =
      .ok { success := true
            data := { operation := "INSERT", totalRows := 0, successfulRows := 0,
                      failedRows := 0, batchCount := 0, errors := [] }
            message := "Bulk insert completed: 0 succeeded, 0 failed" } := rfl

/-- C3 (amended): the `OracleDatabase.node.ts` implementations of
bulkInsert / bulkUpdate / bulkDelete reject an empty `rows` input with a
validation error before any batching and independently of every driver
response (the result is the same constant error for every oracle), while
the `part_003` implementation performs no such validation and returns a
zero-count result. -/
theorem C3_amended_empty_dataset (dbs : Nat) (t : String) (opts : BulkOptions)
    (driver : Nat → BatchCall) (finalCommit : Option String)
    (wc : List String) (hwc : wc ≠ []) :
    nodeBulkInsert dbs t [] opts driver finalCommit =
      .error "Dados para inserção não podem estar vazios" ∧
    nodeBulkUpdate dbs t [] wc opts driver finalCommit =
      .error "Dados para atualização não podem estar vazios" ∧
    nodeBulkDelete dbs t [] wc opts driver finalCommit =
      .error "Dados para exclusão não podem estar vazios" ∧
    (part3BulkInsert dbs t [] opts driver finalCommit).map
        (fun sr => (sr.data.totalRows, sr.data.successfulRows, sr.data.failedRows,
          sr.data.batchCount)) = .ok (0, 0, 0, 0) := by
  refine ⟨rfl, ?_, ?_, ?_⟩
  · rw [nodeBulkUpdate.eq_def]
    rw [if_neg (by simp [hwc])]
  · rw [nodeBulkDelete.eq_def]
    rw [if_neg (by simp [hwc])]
  · simp only [part3BulkInsert.eq_def]
    rw [jsChunks_nil]
    simp only [part3BulkRun]
    have hgate : ((match opts.autoCommit with
        | some true => false
        | _ => true) && BulkAgg.init.successful > 0) = false := by
      simp [BulkAgg.init]
    rw [hgate]
    rfl

theorem C3_amended_empty_dataset_witness :
    nodeBulkUpdate 1000 "T" [] ["id"] {} cleanDriver none =
      .error "Dados para atualização não podem estar vazios" :=
  (C3_amended_empty_dataset 1000 "T" {} cleanDriver none ["id"] (by decide)).2.1

/-- C4: on an active transaction whose savepoint sequence contains `sp`
(first occurrence after prefix `pre`), a successful
`rollbackToSavepoint(sp.name)` leaves exactly the prefix of the sequence up
to and including `sp`, discarding everything created after it. -/
theorem C4_rollbackToSavepoint_keeps_upto (s : TMState)
    (pre post : List SavepointInfo) (sp : SavepointInfo)
    (hact : s.isTransactionActive = true)
    (hsp : s.savepoints = pre ++ sp :: post)
    (hpre : ∀ x ∈ pre, x.name ≠ sp.name) :
    rollbackToSavepoint s sp.name none =
      (none, { s with savepoints := pre ++ [sp] }) := by
  rw [rollbackToSavepoint.eq_def]
  rw [if_neg (by simp [hact])]
  have hfind : (s.savepoints.find? (fun x => x.name == sp.name)).isSome = true := by
    rw [List.find?_isSome]
    refine ⟨sp, ?_, by simp⟩
    rw [hsp]
    exact List.mem_append_right _ (List.mem_cons_self _ _)
  rw [if_neg (by simp [hfind])]
  have hidx : s.savepoints.findIdx (fun x => x.name == sp.name) = pre.length := by
    rw [hsp]
    exact findIdx_eq_length_append pre sp post
      (fun x hx => by simp [hpre x hx]) (by simp)
  rw [hidx, hsp]
  show (none, { s with savepoints := List.take (pre.length + 1) (pre ++ sp :: post) }) = _
  rw [take_append_cons]

theorem C4_rollbackToSavepoint_witness :
    (createSavepoint (createSavepoint (beginTransaction TMState.init {} none 0).2
        "sp1" none none 0).2 "sp2" none none 1).2 =
      (⟨[⟨"sp1", 0, none⟩, ⟨"sp2", 1, none⟩], some 0, true, 0⟩ : TMState) ∧
    rollbackToSavepoint ⟨[⟨"sp1", 0, none⟩, ⟨"sp2", 1, none⟩], some 0, true, 0⟩
        "sp1" none =
      (none, ⟨[⟨"sp1", 0, none⟩], some 0, true, 0⟩) := by
  constructor
  · rfl
  · have h := C4_rollbackToSavepoint_keeps_upto
      ⟨[⟨"sp1", 0, none⟩, ⟨"sp2", 1, none⟩], some 0, true, 0⟩
      [] [⟨"sp2", 1, none⟩] ⟨"sp1", 0, none⟩ rfl rfl (by simp)
    simpa using h

/-- C5: `executeWithRetry` with `maxRetries = 3` and an operation raising a
retryable `Error` on every invocation invokes the operation exactly 3
times, re-raises the last error unchanged, and increments `retryCount`
twice (once per retry after the first attempt, never for the final failing
attempt), so a fresh transaction ends with `retryCount = 2`. -/
theorem C5_executeWithRetry_always_deadlock (s : TMState) (opts : TMOptions)
    (e : JsError) (opAt : Nat → Except JsError Int)
    (hmr : opts.maxRetries = 3) (hrc : s.retryCount = 0)
    (hop : ∀ n, opAt n = .error e)
    (hre : isRetryableError e = true) (hie : e.isError = true) :
    executeWithRetry s opts opAt = (.error e, { s with retryCount := 2 }, 3) := by
  have h3 : retryLoop 3 opAt 3 = (.error e, 0, 1) := by
    rw [retryLoop, hop 3]
    simp [hre, hie]
  have h2 : retryLoop 3 opAt 2 = (.error e, 1, 2) := by
    rw [retryLoop, hop 2]
    simp [hre, h3]
  have h1 : retryLoop 3 opAt 1 = (.error e, 2, 3) := by
    rw [retryLoop, hop 1]
    simp [hre, h2]
  have hmr3 : (if opts.maxRetries = 0 then 3 else opts.maxRetries) = 3 := by
    simp [hmr]
  rw [executeWithRetry, hmr3, h1, hrc]

theorem C5_executeWithRetry_witness :
    executeWithRetry ⟨[], some 0, true, 0⟩ {} (fun _ => .error deadlockError) =
      (.error deadlockError, ⟨[], some 0, true, 2⟩, 3) := by
  have h := C5_executeWithRetry_always_deadlock ⟨[], some 0, true, 0⟩ {}
    deadlockError (fun _ => .error deadlockError) rfl rfl (fun _ => rfl)
    (by decide) rfl
  simpa using h

/-- C6: the TransactionState invariant — pairwise-distinct savepoint names
matching `^[A-Za-z][A-Za-z0-9_]{0,29}$`, and inactive implies no savepoints
and no start timestamp — holds for a freshly constructed manager and is
preserved by every public operation on both its success and error paths. -/
theorem C6_transaction_state_invariant :
    TMInv TMState.init = true ∧
    ∀ (opts : TMOptions) (s s' : TMState),
      TMInv s = true → TMStep opts s s' → TMInv s' = true := by
  refine ⟨rfl, ?_⟩
  intro opts s s' h hstep
  cases hstep with
  | beginStep isoRes now => exact TMInv_begin s opts isoRes now h
  | createStep name d execRes now => exact TMInv_create s name d execRes now h
  | rollbackToStep name execRes => exact TMInv_rollbackTo s name execRes h
  | releaseStep name => exact TMInv_release s name h
  | commitStep commitRes rbRes => exact TMInv_TMcommit s opts commitRes rbRes h
  | rollbackStep rbRes => exact TMInv_TMrollback s rbRes h
  | retryStep opAt => exact TMInv_retry s opts opAt h
  | batchStep operations spo soe bi bn env =>
    exact TMInv_batch s opts operations spo soe bi bn env h

theorem C6_transaction_state_invariant_witness :
    TMInv TMState.init = true ∧
    TMInv (beginTransaction TMState.init {} none 0).2 = true :=
  ⟨C6_transaction_state_invariant.1,
   C6_transaction_state_invariant.2 {} TMState.init _ rfl
     (TMStep.beginStep TMState.init none 0)⟩

/-- C7: for non-empty rows and positive batch size the engine partitions
the rows into exactly `⌈N/B⌉` consecutive slices whose concatenation is the
input (sizes sum to `N`, order preserved, no padding), every slice except
possibly the last has size `B`, every slice is non-empty and at most `B`,
and the loop hands the slices to `executeMany` in ascending index order. -/
theorem C7_batch_partition (data : List Row) (B : Nat) (co autoCommit : Bool)
    (driver : Nat → BatchCall) (_hN : data ≠ []) (hB : 0 < B) :
    (jsChunks B data).length = (data.length + B - 1) / B ∧
    (jsChunks B data).flatten = data ∧
    (∀ c ∈ (jsChunks B data).dropLast, c.length = B) ∧
    (∀ c ∈ jsChunks B data, 0 < c.length ∧ c.length ≤ B) ∧
    (∀ agg' : BulkAgg,
      nodeBulkRun B co autoCommit driver (jsChunks B data) 0 BulkAgg.init = .ok agg' →
      agg'.trace = List.range (jsChunks B data).length) := by
  refine ⟨jsChunks_length B hB data, jsChunks_flatten B hB data,
    fun c hc => length_of_mem_dropLast_jsChunks B hB data c hc,
    fun c hc => length_of_mem_jsChunks B hB data c hc, ?_⟩
  intro agg' h
  have hshape := nodeBulkRun_ok_shape B co autoCommit driver
    (jsChunks B data) 0 BulkAgg.init agg' h
  rw [hshape.2]
  simp [List.range_eq_range', BulkAgg.init]

theorem C7_batch_partition_witness :
    (jsChunks 2 rows3).length = (rows3.length + 2 - 1) / 2 ∧
    (jsChunks 2 rows3).flatten = rows3 :=
  ⟨(C7_batch_partition rows3 2 false true cleanDriver (by decide) (by decide)).1,
   (C7_batch_partition rows3 2 false true cleanDriver (by decide) (by decide)).2.1⟩

/-- C8: a successful `commit()` cleans the state up; a second `commit()`
then raises `Nenhuma transação ativa para commit` with the state unchanged
and without consulting the connection — the second call's result is the
same constant for every connection outcome. -/
theorem C8_commit_twice (s : TMState) (opts : TMOptions) (rbRes : Option String)
    (hact : s.isTransactionActive = true) :
    TMcommit s opts none rbRes = (none, cleanupTransaction s) ∧
    ∀ commitRes₂ rbRes₂ : Option String,
      TMcommit (cleanupTransaction s) opts commitRes₂ rbRes₂ =
        (some "Nenhuma transação ativa para commit", cleanupTransaction s) := by
  constructor
  · rw [TMcommit.eq_def]
    rw [if_neg (by simp [hact])]
  · intro commitRes₂ rbRes₂
    rfl

theorem C8_commit_twice_witness :
    TMcommit ⟨[], some 0, true, 0⟩ {} none none = (none, ⟨[], none, false, 0⟩) ∧
    TMcommit ⟨[], none, false, 0⟩ {} none none =
      (some "Nenhuma transação ativa para commit", ⟨[], none, false, 0⟩) := by
  have h := C8_commit_twice ⟨[], some 0, true, 0⟩ {} none rfl
  exact ⟨h.1, h.2 none none⟩

/-- Inverting a successful `nodeBulkInsert` call on validated non-empty
data: the loop returned an accumulator, the final-commit gate passed, and
the result's counts are the accumulator's. -/
theorem nodeBulkInsert_ok_run (dbs : Nat) (t : String) (row0 : Row)
    (rest : List Row) (opts : BulkOptions) (driver : Nat → BatchCall)
    (finalCommit : Option String) (r : BulkResult)
    (hval : validateDataStructure (row0 :: rest) (rowKeys row0) = none)
    (h : nodeBulkInsert dbs t (row0 :: rest) opts driver finalCommit = .ok r) :
    ∃ agg,
      nodeBulkRun (opts.batchSize.getD dbs) (opts.continueOnError.getD false)
        (opts.autoCommit.getD true) driver
        (jsChunks (opts.batchSize.getD dbs) (row0 :: rest)) 0 BulkAgg.init = .ok agg ∧
      r.successfulRows = agg.successful ∧ r.failedRows = agg.failed ∧
      r.batchCount = agg.batchCount ∧ r.totalRows = (row0 :: rest).length := by
  rw [nodeBulkInsert.eq_def] at h
  simp only [hval] at h
  cases hrun : nodeBulkRun (opts.batchSize.getD dbs) (opts.continueOnError.getD false)
      (opts.autoCommit.getD true) driver
      (jsChunks (opts.batchSize.getD dbs) (row0 :: rest)) 0 BulkAgg.init with
  | error e =>
    rw [hrun] at h
    simp at h
  | ok agg =>
    rw [hrun] at h
    simp only at h
    refine ⟨agg, rfl, ?_⟩
    cases hg : (if !(opts.autoCommit.getD true) && agg.successful > 0
        then finalCommit else none) with
    | some msg =>
      rw [hg] at h
      simp at h
    | none =>
      rw [hg] at h
      simp only at h
      injection h with h
      subst h
      exact ⟨rfl, rfl, rfl, rfl⟩

/-- Inverting a successful `part3BulkInsert` call, analogously. -/
theorem part3BulkInsert_ok_run (dbs : Nat) (t : String) (data : List Row)
    (opts : BulkOptions) (driver : Nat → BatchCall)
    (finalCommit : Option String) (sr : ServiceResult)
    (h : part3BulkInsert dbs t data opts driver finalCommit = .ok sr) :
    ∃ agg,
      part3BulkRun (opts.batchSize.getD dbs) (opts.continueOnError.getD false)
        (opts.autoCommit.getD true) driver
        (jsChunks (opts.batchSize.getD dbs) data) 0 BulkAgg.init = .ok agg ∧
      sr.data.successfulRows = agg.successful ∧ sr.data.failedRows = agg.failed ∧
      sr.data.batchCount = agg.batchCount ∧ sr.data.totalRows = data.length := by
  rw [part3BulkInsert.eq_def] at h
  simp only at h
  cases hrun : part3BulkRun (opts.batchSize.getD dbs) (opts.continueOnError.getD false)
      (opts.autoCommit.getD true) driver
      (jsChunks (opts.batchSize.getD dbs) data) 0 BulkAgg.init with
  | error e =>
    rw [hrun] at h
    simp at h
  | ok agg =>
    rw [hrun] at h
    simp only at h
    refine ⟨agg, rfl, ?_⟩
    cases hg : (if (match opts.autoCommit with | some true => false | _ => true) &&
        agg.successful > 0 then finalCommit else none) with
    | some msg =>
      rw [hg] at h
      simp at h
    | none =>
      rw [hg] at h
      simp only at h
      injection h with h
      subst h
      exact ⟨rfl, rfl, rfl, rfl⟩

/-- C9 counterexample: the two `bulkInsert` implementations are not
equivalent aggregators.  On the partial-batch-error scenario (batch 0 of 2
rows, one driver-reported row error, every commit succeeding) the node.ts
version computes `successfulRows = 1` while the `part_003` version computes
`successfulRows = 2`. -/
theorem C9_counterexample_partial_batch :
    (nodeBulkInsert 1000 "T" rows3 ⟨some 2, some true, none⟩ scenarioDriver none).map
        (fun r => r.successfulRows) = .ok 1 ∧
    (part3BulkInsert 1000 "T" rows3 ⟨some 2, some true, none⟩ scenarioDriver none).map
        (fun sr => sr.data.successfulRows) = .ok 2 ∧
    ¬ ((1 : Int) = 2) := by
  exact ⟨rfl, rfl, by decide⟩

/-- C9 (amended): for non-empty data, positive batch size and a data array
passing node.ts's structure validation, over every sequence of executeMany
and commit outcomes: (a) the batch loops throw in the same cases; (b)
whenever both calls return a result they agree on `failedRows`,
`batchCount` and `totalRows` — including on batches with proper partial
`batchErrors` lists; (c) they additionally agree on `successfulRows`
whenever every driver-reported `batchErrors` list is empty or covers its
whole batch (on a proper partial list node.ts undercounts, see the
counterexample); and (d) the *calls* do not throw in the same cases: the
final commit is gated on the defaulted `autoCommit` in node.ts but on the
raw option in `part_003`, so with `autoCommit` unset and a failing final
commit `part_003` throws where node.ts returns its result. -/
theorem C9_amended_lockstep (dbs : Nat) (t : String) (row0 : Row)
    (rest : List Row) (opts : BulkOptions) (driver : Nat → BatchCall)
    (finalCommit : Option String)
    (hval : validateDataStructure (row0 :: rest) (rowKeys row0) = none) :
    (match nodeBulkRun (opts.batchSize.getD dbs) (opts.continueOnError.getD false)
          (opts.autoCommit.getD true) driver
          (jsChunks (opts.batchSize.getD dbs) (row0 :: rest)) 0 BulkAgg.init,
        part3BulkRun (opts.batchSize.getD dbs) (opts.continueOnError.getD false)
          (opts.autoCommit.getD true) driver
          (jsChunks (opts.batchSize.getD dbs) (row0 :: rest)) 0 BulkAgg.init with
      | .ok _, .ok _ => True
      | .error _, .error _ => True
      | _, _ => False) ∧
    (∀ r₁ sr₂,
      nodeBulkInsert dbs t (row0 :: rest) opts driver finalCommit = .ok r₁ →
      part3BulkInsert dbs t (row0 :: rest) opts driver finalCommit = .ok sr₂ →
      r₁.failedRows = sr₂.data.failedRows ∧ r₁.batchCount = sr₂.data.batchCount ∧
        r₁.totalRows = sr₂.data.totalRows) ∧
    ((∀ j, j < (jsChunks (opts.batchSize.getD dbs) (row0 :: rest)).length →
        ∀ offs, (driver j).exec = .res offs →
          offs = [] ∨ offs.length =
            ((jsChunks (opts.batchSize.getD dbs) (row0 :: rest)).getD j []).length) →
      ∀ r₁ sr₂,
        nodeBulkInsert dbs t (row0 :: rest) opts driver finalCommit = .ok r₁ →
        part3BulkInsert dbs t (row0 :: rest) opts driver finalCommit = .ok sr₂ →
        r₁.successfulRows = sr₂.data.successfulRows) ∧
    ((nodeBulkInsert 1000 "T" rows3 {} cleanDriver finalCommitFailure).isOk = true ∧
      part3BulkInsert 1000 "T" rows3 {} cleanDriver finalCommitFailure =
        .error "ORA-03113: end-of-file on communication channel") := by
  have hlf := run_lockstep_failed (opts.batchSize.getD dbs)
    (opts.continueOnError.getD false) (opts.autoCommit.getD true) driver
    (jsChunks (opts.batchSize.getD dbs) (row0 :: rest)) 0 BulkAgg.init BulkAgg.init rfl rfl
  refine ⟨?_, ?_, ?_, rfl, rfl⟩
  · cases h₁ : nodeBulkRun (opts.batchSize.getD dbs) (opts.continueOnError.getD false)
        (opts.autoCommit.getD true) driver
        (jsChunks (opts.batchSize.getD dbs) (row0 :: rest)) 0 BulkAgg.init with
    | ok b₁ =>
      cases h₂ : part3BulkRun (opts.batchSize.getD dbs) (opts.continueOnError.getD false)
          (opts.autoCommit.getD true) driver
          (jsChunks (opts.batchSize.getD dbs) (row0 :: rest)) 0 BulkAgg.init with
      | ok b₂ => trivial
      | error e₂ =>
        rw [h₁, h₂] at hlf
        exact hlf.elim
    | error e₁ =>
      cases h₂ : part3BulkRun (opts.batchSize.getD dbs) (opts.continueOnError.getD false)
          (opts.autoCommit.getD true) driver
          (jsChunks (opts.batchSize.getD dbs) (row0 :: rest)) 0 BulkAgg.init with
      | ok b₂ =>
        rw [h₁, h₂] at hlf
        exact hlf.elim
      | error e₂ => trivial
  · intro r₁ sr₂ h₁ h₂
    obtain ⟨agg₁, hrun₁, _, hf₁, hb₁, ht₁⟩ :=
      nodeBulkInsert_ok_run dbs t row0 rest opts driver finalCommit r₁ hval h₁
    obtain ⟨agg₂, hrun₂, _, hf₂, hb₂, ht₂⟩ :=
      part3BulkInsert_ok_run dbs t (row0 :: rest) opts driver finalCommit sr₂ h₂
    rw [hrun₁, hrun₂] at hlf
    exact ⟨by rw [hf₁, hf₂, hlf.1], by rw [hb₁, hb₂, hlf.2], by rw [ht₁, ht₂]⟩
  · intro haon r₁ sr₂ h₁ h₂
    have haon' : ∀ j, j < (jsChunks (opts.batchSize.getD dbs) (row0 :: rest)).length →
        ∀ offs, (driver (0 + j)).exec = .res offs → offs = [] ∨ offs.length =
          ((jsChunks (opts.batchSize.getD dbs) (row0 :: rest)).getD j []).length := by
      intro j hj offs hres
      exact haon j hj offs (by simpa using hres)
    have hls := run_lockstep_successful (opts.batchSize.getD dbs)
      (opts.continueOnError.getD false) (opts.autoCommit.getD true) driver
      (jsChunks (opts.batchSize.getD dbs) (row0 :: rest)) 0 BulkAgg.init BulkAgg.init
      rfl haon'
    obtain ⟨agg₁, hrun₁, hs₁, _⟩ :=
      nodeBulkInsert_ok_run dbs t row0 rest opts driver finalCommit r₁ hval h₁
    obtain ⟨agg₂, hrun₂, hs₂, _⟩ :=
      part3BulkInsert_ok_run dbs t (row0 :: rest) opts driver finalCommit sr₂ h₂
    rw [hrun₁, hrun₂] at hls
    rw [hs₁, hs₂]
    exact hls

theorem C9_amended_lockstep_witness :
    (nodeBulkInsert 1000 "T" rows3 {} cleanDriver finalCommitFailure).isOk = true ∧
    part3BulkInsert 1000 "T" rows3 {} cleanDriver finalCommitFailure =
      .error "ORA-03113: end-of-file on communication channel" :=
  (C9_amended_lockstep 1000 "T" [("a", 1)] [[("a", 2)], [("a", 3)]] {} cleanDriver
    finalCommitFailure rfl).2.2.2

/-- C10: `bulkUpsert` performs no empty-dataset validation: with non-empty
`keyColumns` and empty data it throws the runtime `TypeError` from
`Object.keys(data[0])` (`data[0]` is `undefined`) — distinct from the
explicit validation errors raised by the other bulk methods — and does so
for every connection outcome, i.e. before any statement is sent. -/
theorem C10_bulkUpsert_empty_typeError (t : String) (keyColumns : List String)
    (opts : BulkOptions) (hkc : keyColumns ≠ []) :
    ∀ execRes : Except String (Option Int),
      nodeBulkUpsert t [] keyColumns opts execRes =
        .error (.typeError "Cannot convert undefined or null to object") := by
  intro execRes
  rw [nodeBulkUpsert.eq_def]
  rw [if_neg (by simp [hkc])]

theorem C10_bulkUpsert_empty_typeError_witness :
    nodeBulkUpsert "T" [] ["id"] {} (.ok (some 7)) =
      .error (.typeError "Cannot convert undefined or null to object") :=
  C10_bulkUpsert_empty_typeError "T" ["id"] {} (by decide) (.ok (some 7))

end OracleThin
